import Mathlib

/-!
Verification of the `cloth` process pool orchestrator (`lib/pool.js`).

The repository holds two versions of the pool:
* a newer version (here: namespace-free definitions below) whose `_allocate`
  supports an optional `maxTasksPerWorker` rotation limit, and
* an older version (`src/lib/pool.js`, embedded below with `old_` prefixes)
  without the rotation limit.

The embedding is a shallow one.  JavaScript state is made explicit:

* `this.workers` (an object keyed by pid) becomes an association list
  `List (Nat × Worker)` in insertion order, matching `Object.keys` order;
* `this.idle` (array of pids mutated only by `unshift`, `pop` and `splice`
  at `indexOf`) becomes a list whose entries also carry a ghost timestamp
  recording when the worker was idled; the source array is the `map Prod.fst`
  image of the embedded list;
* `this.tasks` (array of `Task` objects mutated only by `unshift` and `pop`)
  becomes a `List Nat` of task identifiers;
* `this.emit(...)` calls and `console` logging are recorded in a ghost event
  log (newest event first);
* ghost logs `queuedOrder`, `startedFromQueue`, `startLog` and `killLog`
  record, oldest first (or newest first for `startLog`/`killLog`), the order
  in which tasks entered the queue, left the queue, were started on workers,
  and which workers received a `kill()` call;
* the `throw 'Worker process could not start'` in `cleanUpChild` makes that
  routine return `Except String`;
* the external `Task` collaborator is opaque: a task is its identifier, and
  its asynchronous signals (readiness message, terminal `end`/`error` event,
  process exit) are modelled as actions `Act` delivered to the pool in an
  arbitrary order by `step`.
-/

/-- Pool-level emitted signals and logged notices (ghost observation log). -/
inductive Ev where
  /-- proxied task `start` event, emitted when a task is started on a worker -/
  | start (task : Nat)
  /-- `this.emit('empty')` in `_allocate` -/
  | empty
  /-- `this.emit('drain')` in `_allocate` -/
  | drain
  /-- `this.emit('saturated')` in `run` -/
  | saturated
  /-- synthesized `{type: 'error'}` message delivered to the in-flight task's
      listener by `cleanUpChild` -/
  | synthError (pid : Nat)
  /-- `console.log('Replacing worker ...')` in `cleanUpChild` (worker was
      deliberately killed) -/
  | logReplacing (pid : Nat)
  /-- `console.error('No listeners for error', err)` in `cleanUpChild` -/
  | logNoListeners (pid : Nat)
deriving DecidableEq, Repr

/-- Per-worker state attached to the forked child process.
`ready` is `child._ready_`, `taskCount` is `child._taskCount_`, `killed` is
`child.killed` (set by `child.kill()`), `listenerCount` is the number of
`message` listeners the external Task collaborator currently has attached
(`child.listeners('message').length`), and `started` is a ghost counter of
how many tasks were ever started on this worker via `_start`. -/
structure Worker where
  ready : Bool
  taskCount : Nat
  killed : Bool
  listenerCount : Nat
  started : Nat
deriving DecidableEq, Repr

/-- Constructor options of the newer pool: `workers` (worker count limit,
defaulting to `os.cpus().length`) and `maxTasksPerWorker` (defaulting to -1,
i.e. rotation disabled).  The executable `path` and `arguments` only
parameterize `cp.fork` and are not modelled. -/
structure Options where
  workers : Nat
  maxTasksPerWorker : Int
deriving DecidableEq, Repr

/-- The full pool state.  `workers`, `idleL`, `tasks` are the three mutable
containers of the source; `nextPid` generates fresh pids for `cp.fork`;
`clock` stamps idle-list entries (ghost); `events` is the ghost emission log
(newest first); `listenersActive` records whether pool-level listeners are
attached (`removeAllListeners` clears it); the remaining fields are ghost
logs described in the module docstring. -/
structure PoolState where
  options : Options
  workers : List (Nat × Worker)
  idleL : List (Nat × Nat)
  tasks : List Nat
  nextPid : Nat
  clock : Nat
  events : List Ev
  listenersActive : Bool
  queuedOrder : List Nat
  startedFromQueue : List Nat
  startLog : List (Nat × Nat)
  killLog : List Nat
deriving DecidableEq, Repr

/-- Look up a worker handle by pid: `this.workers[pid]`. -/
def lookupW (ws : List (Nat × Worker)) (pid : Nat) : Option Worker :=
  (ws.find? (fun e => e.1 == pid)).map Prod.snd

/-- Update the worker stored under `pid` in place (no-op when absent). -/
def updW (ws : List (Nat × Worker)) (pid : Nat) (f : Worker → Worker) :
    List (Nat × Worker) :=
  ws.map (fun e => if e.1 == pid then (e.1, f e.2) else e)

/-- The idle array of the source is the pid component of the stamped list. -/
def idlePids (s : PoolState) : List Nat := s.idleL.map Prod.fst

/-- `available()`: configured limit minus busy count, where
`busy = Object.keys(this.workers).length - this.idle.length`. -/
def available (s : PoolState) : Int :=
  (s.options.workers : Int) - ((s.workers.length : Int) - (s.idleL.length : Int))

/-- `total()`: the configured worker count limit. -/
def total (s : PoolState) : Int := (s.options.workers : Int)

/-- `_spawn()`: fork a child with a fresh pid, `_ready_ = false`,
`_taskCount_ = 0`, and register it in `this.workers`.  The `message`,
`exit` and `error` listeners it installs are modelled by the `Act.ready`
and `Act.exitSig` actions. -/
def _spawn (s : PoolState) : PoolState :=
  { s with
    workers := s.workers ++ [(s.nextPid, ⟨false, 0, false, 0, 0⟩)],
    nextPid := s.nextPid + 1 }

/-- `_start(pid, task)`: subscribe to the task's events and run it on the
worker.  `task.run(child)` makes the external Task attach one `message`
listener to the child and emit `start`, which the wildcard handler proxies
to the pool; the later terminal `end`/`error` event is delivered as
`Act.taskDone`. -/
def _start (s : PoolState) (pid : Nat) (task : Nat) : PoolState :=
  { s with
    workers := updW s.workers pid
      (fun w => { w with listenerCount := 1, started := w.started + 1 }),
    events := Ev.start task :: s.events,
    startLog := (pid, task) :: s.startLog }

/-- Kill a worker process: `child.kill()` marks it killed; the OS-level exit
arrives later as `Act.exitSig`. -/
def killW (s : PoolState) (pid : Nat) : PoolState :=
  { s with
    workers := updW s.workers pid (fun w => { w with killed := true }),
    killLog := pid :: s.killLog }

/-- Read `child._taskCount_`.  `_allocate` is only ever invoked on tracked
pids in the source (readiness handler, `_handleWorkerDone` after a
membership check), so the default value of an absent pid is never relied
upon where the rotation test would dereference it. -/
def taskCountOf (s : PoolState) (pid : Nat) : Nat :=
  ((lookupW s.workers pid).map Worker.taskCount).getD 0

/-- `_allocate(pid)` of the newer pool: retire the worker if it reached the
rotation limit; else pop the oldest queued task (queue `pop`) and start it,
bumping `_taskCount_`; else unshift the worker onto the idle list and emit
`drain` when every tracked worker is idle. -/
def _allocate (s : PoolState) (pid : Nat) : PoolState :=
  if s.options.maxTasksPerWorker > 0 ∧
      (taskCountOf s pid : Int) ≥ s.options.maxTasksPerWorker then
    killW s pid
  else
    match s.tasks.getLast? with
    | some t =>
        _start
          { s with
            events := Ev.empty :: s.events,
            workers := updW s.workers pid
              (fun w => { w with taskCount := w.taskCount + 1 }),
            tasks := s.tasks.dropLast,
            startedFromQueue := s.startedFromQueue ++ [t] }
          pid t
    | none =>
        if s.workers.length = ((pid, s.clock) :: s.idleL).length then
          { s with idleL := (pid, s.clock) :: s.idleL, clock := s.clock + 1,
                   events := Ev.drain :: s.events }
        else
          { s with idleL := (pid, s.clock) :: s.idleL, clock := s.clock + 1 }

/-- `_handleWorkerDone(pid)`: still tracked means no crash, so allocate;
untracked (crashed) with pending work means spawn a replacement. -/
def _handleWorkerDone (s : PoolState) (pid : Nat) : PoolState :=
  if (lookupW s.workers pid).isSome then
    _allocate s pid
  else if s.tasks ≠ [] then
    _spawn s
  else s

/-- `cleanUpChild(err)` of the newer pool, run on child `exit` or `error`.
Untracked pid: no-op.  Tracked: delete from `workers`; if idle, splice out
of `idle`; else if never ready, `throw 'Worker process could not start'`;
else deliver a synthesized error to the task's `message` listener if one is
attached, and otherwise (deliberate kill, or no listener at all) log and run
`_handleWorkerDone`. -/
def cleanUpChild (s : PoolState) (pid : Nat) : Except String PoolState :=
  match lookupW s.workers pid with
  | none => Except.ok s
  | some w =>
      let s1 := { s with workers := s.workers.eraseP (fun e => e.1 == pid) }
      if pid ∈ idlePids s1 then
        Except.ok { s1 with idleL := s1.idleL.eraseP (fun e => e.1 == pid) }
      else if w.ready = false then
        Except.error "Worker process could not start"
      else if w.listenerCount > 0 then
        Except.ok { s1 with events := Ev.synthError pid :: s1.events }
      else if w.killed then
        Except.ok (_handleWorkerDone
          { s1 with events := Ev.logReplacing pid :: s1.events } pid)
      else
        Except.ok (_handleWorkerDone
          { s1 with events := Ev.logNoListeners pid :: s1.events } pid)

/-- The deferred `setTimeout` body of `run(command)`: pop the last idle
worker and start the task on it; else, below the worker limit, unshift the
task onto the queue and spawn; else emit `saturated` and unshift the task. -/
def runTick (s : PoolState) (t : Nat) : PoolState :=
  match s.idleL.getLast? with
  | some e => _start { s with idleL := s.idleL.dropLast } e.1 t
  | none =>
      if s.workers.length < s.options.workers then
        _spawn { s with
          tasks := t :: s.tasks,
          queuedOrder := s.queuedOrder ++ [t] }
      else
        { s with
          events := Ev.saturated :: s.events,
          tasks := t :: s.tasks,
          queuedOrder := s.queuedOrder ++ [t] }

/-- `drain()`: clear the pending queue, remove all pool-level listeners,
and call `kill()` on every tracked worker. -/
def drain (s : PoolState) : PoolState :=
  { s with
    tasks := [],
    listenersActive := false,
    workers := s.workers.map (fun e => (e.1, { e.2 with killed := true })),
    killLog := s.workers.map Prod.fst ++ s.killLog }

/-- Asynchronous signals driving the pool, in an arbitrary interleaving:
the deferred dispatch tick of `run`, a worker's readiness message, a task's
terminal `end`/`error` event, a child process `exit`/`error` signal, and an
explicit `drain()` call. -/
inductive Act where
  | runT (task : Nat)
  | ready (pid : Nat)
  | taskDone (pid : Nat)
  | exitSig (pid : Nat)
  | shutdown
deriving DecidableEq, Repr

/-- Mark a worker ready (`child._ready_ = true` in the readiness handler). -/
def setReady (s : PoolState) (pid : Nat) : PoolState :=
  { s with workers := updW s.workers pid (fun w => { w with ready := true }) }

/-- Detach the external task's `message` listener (the task has delivered a
terminal event). -/
def clearListener (s : PoolState) (pid : Nat) : PoolState :=
  { s with workers := updW s.workers pid (fun w => { w with listenerCount := 0 }) }

/-- One asynchronous step of the orchestrator.  The readiness handler only
fires while the worker is tracked and not yet ready (it removes itself);
a terminal task event clears the task's child listener and runs
`_handleWorkerDone`; a process exit runs `cleanUpChild`, which can throw. -/
def step (s : PoolState) : Act → Except String PoolState
  | Act.runT t => Except.ok (runTick s t)
  | Act.ready pid =>
      match lookupW s.workers pid with
      | some w =>
          if w.ready then Except.ok s
          else Except.ok (_allocate (setReady s pid) pid)
      | none => Except.ok s
  | Act.taskDone pid => Except.ok (_handleWorkerDone (clearListener s pid) pid)
  | Act.exitSig pid => cleanUpChild s pid
  | Act.shutdown => Except.ok (drain s)

/-- Run a list of actions from a state, stopping at the first throw. -/
def execSteps (s : PoolState) : List Act → Except String PoolState
  | [] => Except.ok s
  | a :: rest =>
      match step s a with
      | Except.ok s1 => execSteps s1 rest
      | Except.error e => Except.error e

/-- The freshly constructed pool: empty containers, pool listeners
attached. -/
def initState (limit : Nat) (maxT : Int) : PoolState :=
  { options := ⟨limit, maxT⟩,
    workers := [], idleL := [], tasks := [],
    nextPid := 0, clock := 0, events := [], listenersActive := true,
    queuedOrder := [], startedFromQueue := [], startLog := [], killLog := [] }

/-- Execute a trace of asynchronous signals against a fresh pool. -/
def execTrace (limit : Nat) (maxT : Int) (acts : List Act) :
    Except String PoolState :=
  execSteps (initState limit maxT) acts

/-! ## C4: capacity accounting -/

/-- C4: in every pool state, `available()` plus the busy-worker count
(tracked workers minus idle workers) equals the configured worker limit:
`available s + (|workers| - |idle|) = options.workers`. -/
theorem available_add_busy_eq_limit (s : PoolState) :
    available s + ((s.workers.length : Int) - (s.idleL.length : Int)) =
      (s.options.workers : Int) := by
  simp [available]

/-! ## C6: idempotent cleanup -/

/-- C6: `cleanUpChild` on a pid that is no longer in the workers map is a
complete no-op: the state (workers, idle, tasks, `nextPid`, all logs) is
returned unchanged, so a duplicate exit/error signal spawns no replacement
worker. -/
theorem cleanUpChild_untracked_noop (s : PoolState) (pid : Nat)
    (h : lookupW s.workers pid = none) :
    cleanUpChild s pid = Except.ok s := by
  simp [cleanUpChild, h]

/-- Concrete instance: a duplicate exit signal for pid 7, which the
single-worker pool never tracked, leaves the state untouched. -/
theorem cleanUpChild_untracked_noop_witness :
    cleanUpChild (_spawn (initState 2 (-1))) 7 =
      Except.ok (_spawn (initState 2 (-1))) :=
  cleanUpChild_untracked_noop (_spawn (initState 2 (-1))) 7 (by decide)

/-! ## C8: saturated branch of the deferred dispatch tick -/

/-- C8: at the deferred tick with no idle worker and the tracked-worker
count at the configured limit, `run` emits `saturated` and unshifts the
task onto the queue, leaving `workers` and `idleL` (and `nextPid`: no
spawn) unchanged. -/
theorem runTick_saturated (s : PoolState) (t : Nat)
    (hidle : s.idleL = []) (hfull : s.workers.length = s.options.workers) :
    runTick s t =
      { s with events := Ev.saturated :: s.events,
               tasks := t :: s.tasks,
               queuedOrder := s.queuedOrder ++ [t] } := by
  simp [runTick, hidle, hfull]

/-- State of a 1-worker pool whose only worker is busy with queued task 0. -/
def satState : PoolState :=
  _spawn { (initState 1 (-1)) with tasks := [0], queuedOrder := [0] }

/-- Concrete instance: submitting task 1 to the saturated 1-worker pool
queues it and emits `saturated` without spawning. -/
theorem runTick_saturated_witness :
    runTick satState 1 =
      { satState with events := Ev.saturated :: satState.events,
                      tasks := 1 :: satState.tasks,
                      queuedOrder := satState.queuedOrder ++ [1] } :=
  runTick_saturated satState 1 (by decide) (by decide)

/-! ## C9: hard shutdown -/

/-- C9: `drain()` (the shutdown operation) leaves the pending queue empty,
detaches all pool-level listeners, and issues `kill()` to every tracked
worker (recorded per-pid in `killLog`, and visible as the `killed` flag on
every worker still in the map); it does not wait for in-flight tasks. -/
theorem drain_shutdown_spec (s : PoolState) :
    (drain s).tasks = [] ∧ (drain s).listenersActive = false ∧
    (drain s).killLog = s.workers.map Prod.fst ++ s.killLog ∧
    ∀ e ∈ (drain s).workers, e.2.killed = true := by
  refine ⟨rfl, rfl, rfl, fun e he => ?_⟩
  simp only [drain, List.mem_map] at he
  obtain ⟨a, -, rfl⟩ := he
  rfl

/-- Concrete instance: shutting down a 1-worker pool with a queued task
clears the queue, detaches listeners, and kills worker 0. -/
theorem drain_shutdown_witness :
    (drain satState).tasks = [] ∧ (drain satState).listenersActive = false ∧
    (drain satState).killLog = satState.workers.map Prod.fst ++ satState.killLog ∧
    ∀ e ∈ (drain satState).workers, e.2.killed = true :=
  drain_shutdown_spec satState

/-! ## C3: `drain` fires exactly once per transition into fully-idle -/

/-- C3: when `_allocate` returns a worker to the idle list (rotation limit
not reached, task queue empty), the `drain` event is appended exactly when
this allocation makes the idle list as long as the tracked-worker set —
i.e. exactly on the transition into the fully-idle state — and otherwise
no event is emitted; equivalently, `drain` was just emitted iff the
resulting state is fully idle. -/
theorem allocate_drain_once (s : PoolState) (pid : Nat) (w : Worker)
    (hw : lookupW s.workers pid = some w)
    (hrot : ¬(s.options.maxTasksPerWorker > 0 ∧
      (w.taskCount : Int) ≥ s.options.maxTasksPerWorker))
    (hq : s.tasks = []) :
    (_allocate s pid).events =
      (if s.workers.length = s.idleL.length + 1 then [Ev.drain] else []) ++
        s.events ∧
    ((_allocate s pid).events = Ev.drain :: s.events ↔
      (_allocate s pid).workers.length = (_allocate s pid).idleL.length) := by
  have hcount : taskCountOf s pid = w.taskCount := by simp [taskCountOf, hw]
  rw [_allocate, if_neg (fun hc => hrot ⟨hc.1, by
    have h2 := hc.2; rwa [hcount] at h2⟩)]
  rw [hq]
  simp only [List.getLast?_nil]
  by_cases hfull : s.workers.length = s.idleL.length + 1
  · simp [hfull]
  · simp [hfull, List.cons_ne_self]

/-- State of a 2-worker pool: workers 0 (busy) and 1 (newly done), worker 0
not idle, queue empty. -/
def preDrainState : PoolState :=
  setReady (setReady (_spawn (_spawn (initState 2 (-1)))) 0) 1

/-- Concrete instance: with worker 1 of two still busy, returning worker 0
to idle emits no `drain`; the resulting state is not fully idle. -/
theorem allocate_drain_once_witness :
    (_allocate preDrainState 0).events =
      (if preDrainState.workers.length = preDrainState.idleL.length + 1
        then [Ev.drain] else []) ++ preDrainState.events ∧
    ((_allocate preDrainState 0).events = Ev.drain :: preDrainState.events ↔
      (_allocate preDrainState 0).workers.length =
        (_allocate preDrainState 0).idleL.length) :=
  allocate_drain_once preDrainState 0 ⟨true, 0, false, 0, 0⟩
    (by decide) (by decide) rfl

/-! ## C5: error escalation out of the orchestrator -/

/-- C5 counterexample: a worker process that exits before completing its
readiness handshake makes `cleanUpChild` throw
`'Worker process could not start'` out of the orchestrator — the error is
not handled locally.  Trace: submit task 0 (spawns worker 0), then worker 0
exits before sending `ready`. -/
theorem preready_exit_throws :
    execTrace 1 (-1) [Act.runT 0, Act.exitSig 0] =
      Except.error "Worker process could not start" := rfl

/-- C5 amended: `cleanUpChild` throws exactly when the exiting worker is
still tracked, is not on the idle list, and never completed its readiness
handshake (the fatal startup failure); every other crash/exit condition is
handled locally inside the pool without an exception. -/
theorem cleanUpChild_throw_iff (s : PoolState) (pid : Nat) :
    (∃ e, cleanUpChild s pid = Except.error e) ↔
      ((∃ w, lookupW s.workers pid = some w ∧ w.ready = false) ∧
        pid ∉ idlePids s) := by
  cases hl : lookupW s.workers pid with
  | none => simp [cleanUpChild, hl]
  | some w =>
      by_cases hm : pid ∈ s.idleL.map Prod.fst
      · simp [cleanUpChild, hl, idlePids, hm]
      · by_cases hr : w.ready = false
        · simp [cleanUpChild, hl, idlePids, hm, hr]
        · by_cases hlc : 0 < w.listenerCount
          · simp [cleanUpChild, hl, idlePids, hm, hr, hlc]
          · by_cases hk : w.killed = true
            · simp [cleanUpChild, hl, idlePids, hm, hr, hlc, hk]
            · simp [cleanUpChild, hl, idlePids, hm, hr, hlc, hk]

/-! ## C2: rotation limit -/

/-- Scenario for the rotation bug: a 1-worker pool with
`maxTasksPerWorker = 2`.  Task 0 is queued and dispatched by `_allocate`
(counter 0 → 1); after it finishes the worker goes idle; tasks 1 and 2 are
then each dispatched by `run`'s direct idle path, which never increments
`_taskCount_`. -/
def rotationBypassTrace : List Act :=
  [Act.runT 0, Act.ready 0, Act.taskDone 0, Act.runT 1, Act.taskDone 0,
   Act.runT 2, Act.taskDone 0]

/-- C2 failing input: with rotation limit 2, worker 0 is started on three
tasks (`started = 3`), yet its `_taskCount_` is still 1, it was never
killed (`killLog = []`), and it is back on the idle list ready for more —
because `run`'s direct dispatch to an idle worker bypasses the counter that
`_allocate`'s retirement check reads. -/
theorem rotation_limit_bypassed :
    ∃ s w, execTrace 1 2 rotationBypassTrace = Except.ok s ∧
      lookupW s.workers 0 = some w ∧ w.started = 3 ∧ w.taskCount = 1 ∧
      w.killed = false ∧ s.killLog = [] :=
  ⟨_, _, rfl, rfl, rfl, rfl, rfl, rfl⟩

/-! ## C1: FIFO dispatch of queued tasks -/

/-- Reversing a list exposes its last element at the head. -/
theorem reverse_eq_cons_of_getLast? {α : Type} {l : List α} {t : α}
    (h : l.getLast? = some t) : l.reverse = t :: l.dropLast.reverse := by
  conv_lhs => rw [← List.dropLast_append_getLast? t (Option.mem_def.mpr h)]
  simp

/-- Queue bookkeeping invariant: the tasks ever queued are exactly the tasks
already started from the queue, in order, followed by the still-pending
tasks, oldest first. -/
def QueueInv (s : PoolState) : Prop :=
  s.queuedOrder = s.startedFromQueue ++ s.tasks.reverse

/-- The invariant only reads the queue and the two order logs. -/
theorem queueInv_of_eq {s s2 : PoolState}
    (hq : s2.queuedOrder = s.queuedOrder)
    (hs : s2.startedFromQueue = s.startedFromQueue)
    (ht : s2.tasks = s.tasks) (h : QueueInv s) : QueueInv s2 := by
  unfold QueueInv at *
  rw [hq, hs, ht]
  exact h

/-- `_allocate` preserves the queue invariant: it either pops the last
array element (the oldest queued task) appending it to the started log, or
leaves the queue alone. -/
theorem queueInv_allocate {s : PoolState} (pid : Nat) (h : QueueInv s) :
    QueueInv (_allocate s pid) := by
  unfold _allocate
  split
  · exact h
  · cases hg : s.tasks.getLast? with
    | some t =>
        simp only [hg]
        show s.queuedOrder =
          (s.startedFromQueue ++ [t]) ++ s.tasks.dropLast.reverse
        rw [h, reverse_eq_cons_of_getLast? hg]
        simp
    | none =>
        simp only [hg]
        split
        · exact queueInv_of_eq rfl rfl rfl h
        · exact queueInv_of_eq rfl rfl rfl h

/-- The deferred dispatch tick preserves the queue invariant: a direct
start leaves the queue alone, and both queueing branches unshift the new
task while logging it as queued. -/
theorem queueInv_runTick {s : PoolState} (t : Nat) (h : QueueInv s) :
    QueueInv (runTick s t) := by
  unfold runTick
  cases hg : s.idleL.getLast? with
  | some e =>
      simp only [hg]
      exact queueInv_of_eq rfl rfl rfl h
  | none =>
      simp only [hg]
      split
      · show s.queuedOrder ++ [t] =
          s.startedFromQueue ++ (t :: s.tasks).reverse
        rw [List.reverse_cons, h, List.append_assoc]
      · show s.queuedOrder ++ [t] =
          s.startedFromQueue ++ (t :: s.tasks).reverse
        rw [List.reverse_cons, h, List.append_assoc]

/-- Worker-completion handling preserves the queue invariant. -/
theorem queueInv_handleWorkerDone {s : PoolState} (pid : Nat)
    (h : QueueInv s) : QueueInv (_handleWorkerDone s pid) := by
  unfold _handleWorkerDone
  split
  · exact queueInv_allocate pid h
  · split
    · exact queueInv_of_eq rfl rfl rfl h
    · exact h

/-- Crash cleanup preserves the queue invariant on every non-throwing
path. -/
theorem queueInv_cleanUpChild {s s2 : PoolState} (pid : Nat)
    (hok : cleanUpChild s pid = Except.ok s2) (h : QueueInv s) :
    QueueInv s2 := by
  unfold cleanUpChild at hok
  cases hl : lookupW s.workers pid with
  | none =>
      simp only [hl] at hok
      cases hok
      exact h
  | some w =>
      simp only [hl] at hok
      split at hok
      · cases hok
        exact queueInv_of_eq rfl rfl rfl h
      · split at hok
        · cases hok
        · split at hok
          · cases hok
            exact queueInv_of_eq rfl rfl rfl h
          · split at hok
            · cases hok
              exact queueInv_handleWorkerDone pid
                (queueInv_of_eq rfl rfl rfl h)
            · cases hok
              exact queueInv_handleWorkerDone pid
                (queueInv_of_eq rfl rfl rfl h)

/-- Every non-shutdown step preserves the queue invariant. -/
theorem queueInv_step {s s2 : PoolState} {a : Act}
    (hstep : step s a = Except.ok s2) (hnd : a ≠ Act.shutdown)
    (h : QueueInv s) : QueueInv s2 := by
  cases a with
  | runT t =>
      obtain rfl : runTick s t = s2 := by simpa [step] using hstep
      exact queueInv_runTick t h
  | ready pid =>
      unfold step at hstep
      cases hl : lookupW s.workers pid with
      | none =>
          simp only [hl] at hstep
          cases hstep
          exact h
      | some w =>
          simp only [hl] at hstep
          split at hstep
          · cases hstep
            exact h
          · cases hstep
            exact queueInv_allocate pid (queueInv_of_eq rfl rfl rfl h)
  | taskDone pid =>
      obtain rfl : _handleWorkerDone (clearListener s pid) pid = s2 := by
        simpa [step] using hstep
      exact queueInv_handleWorkerDone pid (queueInv_of_eq rfl rfl rfl h)
  | exitSig pid => exact queueInv_cleanUpChild pid hstep h
  | shutdown => exact absurd rfl hnd

/-- Shutdown-free executions preserve the queue invariant. -/
theorem queueInv_execSteps {acts : List Act} {s s2 : PoolState}
    (hex : execSteps s acts = Except.ok s2) (hnd : Act.shutdown ∉ acts)
    (h : QueueInv s) : QueueInv s2 := by
  induction acts generalizing s with
  | nil =>
      cases hex
      exact h
  | cons a rest ih =>
      unfold execSteps at hex
      cases hstep : step s a with
      | ok s1 =>
          rw [hstep] at hex
          exact ih hex (fun hm => hnd (List.mem_cons_of_mem _ hm))
            (queueInv_step hstep
              (fun ha => hnd (ha ▸ List.mem_cons_self _ _)) h)
      | error e => rw [hstep] at hex; cases hex

/-- C1: over every shutdown-free execution of the pool, the sequence of
tasks ever queued equals the sequence of tasks started from the queue by
`_allocate` followed by the still-pending queue, oldest first.  Hence the
k-th task `_allocate` starts from the queue is the k-th task `run` queued
(FIFO), and `_allocate`, when it pops, always pops the oldest still-queued
task (the head of `s.tasks.reverse`). -/
theorem queued_tasks_fifo (limit : Nat) (maxT : Int) (acts : List Act)
    (s : PoolState) (hnd : Act.shutdown ∉ acts)
    (hex : execTrace limit maxT acts = Except.ok s) :
    s.queuedOrder = s.startedFromQueue ++ s.tasks.reverse :=
  queueInv_execSteps hex hnd rfl

/-- Trace for the FIFO witness: a 1-worker pool receives tasks 10 and 11
(both are queued: the worker is mid-spawn, then busy), the worker comes up
and drains both. -/
def fifoTrace : List Act :=
  [Act.runT 10, Act.runT 11, Act.ready 0, Act.taskDone 0, Act.taskDone 0]

/-- Concrete instance: after `fifoTrace`, the queue log is `[10, 11]` and
the started-from-queue log is `[10, 11]` — submission order preserved. -/
theorem queued_tasks_fifo_witness :
    ∃ s, execTrace 1 (-1) fifoTrace = Except.ok s ∧
      s.queuedOrder = s.startedFromQueue ++ s.tasks.reverse ∧
      s.startedFromQueue = [10, 11] :=
  ⟨_, rfl, queued_tasks_fifo 1 (-1) fifoTrace _ (by decide) rfl, rfl⟩

/-! ## C7: the popped idle worker is the oldest-idled one -/

/-- Idle-order invariant: the ghost idle timestamps strictly decrease from
the front of the list (the front entry was idled most recently), and every
stamp is below the current clock. -/
def IdleInv (s : PoolState) : Prop :=
  s.idleL.Pairwise (fun a b => b.2 < a.2) ∧ ∀ e ∈ s.idleL, e.2 < s.clock

/-- The invariant only reads the idle list and the clock. -/
theorem idleInv_of_eq {s s2 : PoolState} (hi : s2.idleL = s.idleL)
    (hc : s2.clock = s.clock) (h : IdleInv s) : IdleInv s2 := by
  unfold IdleInv at *
  rw [hi, hc]
  exact h

/-- Taking a sublist of the idle list (pop from the back, splice) keeps the
invariant. -/
theorem idleInv_sub {s s2 : PoolState} (hi : List.Sublist s2.idleL s.idleL)
    (hc : s2.clock = s.clock) (h : IdleInv s) : IdleInv s2 := by
  refine ⟨h.1.sublist hi, fun e he => ?_⟩
  rw [hc]
  exact h.2 e (hi.subset he)

/-- `_allocate` preserves the idle-order invariant; in particular
unshifting the newly idle worker stamps it with the (maximal) current
clock. -/
theorem idleInv_allocate {s : PoolState} (pid : Nat) (h : IdleInv s) :
    IdleInv (_allocate s pid) := by
  unfold _allocate
  split
  · exact idleInv_of_eq rfl rfl h
  · cases hg : s.tasks.getLast? with
    | some t =>
        simp only [hg]
        exact idleInv_of_eq rfl rfl h
    | none =>
        simp only [hg]
        have hpair :
            ((pid, s.clock) :: s.idleL).Pairwise (fun a b => b.2 < a.2) :=
          List.pairwise_cons.mpr ⟨fun e he => h.2 e he, h.1⟩
        have hbound : ∀ e ∈ (pid, s.clock) :: s.idleL, e.2 < s.clock + 1 := by
          intro e he
          rcases List.mem_cons.mp he with rfl | h2
          · exact Nat.lt_succ_self _
          · exact Nat.lt_succ_of_lt (h.2 e h2)
        split
        · exact ⟨hpair, hbound⟩
        · exact ⟨hpair, hbound⟩

/-- The deferred dispatch tick preserves the idle-order invariant. -/
theorem idleInv_runTick {s : PoolState} (t : Nat) (h : IdleInv s) :
    IdleInv (runTick s t) := by
  unfold runTick
  cases hg : s.idleL.getLast? with
  | some e =>
      simp only [hg]
      exact idleInv_sub (List.dropLast_sublist _) rfl h
  | none =>
      simp only [hg]
      split
      · exact idleInv_of_eq rfl rfl h
      · exact idleInv_of_eq rfl rfl h

/-- Worker-completion handling preserves the idle-order invariant. -/
theorem idleInv_handleWorkerDone {s : PoolState} (pid : Nat)
    (h : IdleInv s) : IdleInv (_handleWorkerDone s pid) := by
  unfold _handleWorkerDone
  split
  · exact idleInv_allocate pid h
  · split
    · exact idleInv_of_eq rfl rfl h
    · exact h

/-- Crash cleanup preserves the idle-order invariant on every non-throwing
path (the splice is a sublist). -/
theorem idleInv_cleanUpChild {s s2 : PoolState} (pid : Nat)
    (hok : cleanUpChild s pid = Except.ok s2) (h : IdleInv s) :
    IdleInv s2 := by
  unfold cleanUpChild at hok
  cases hl : lookupW s.workers pid with
  | none =>
      simp only [hl] at hok
      cases hok
      exact h
  | some w =>
      simp only [hl] at hok
      split at hok
      · cases hok
        exact idleInv_sub (List.eraseP_sublist _) rfl h
      · split at hok
        · cases hok
        · split at hok
          · cases hok
            exact idleInv_of_eq rfl rfl h
          · split at hok
            · cases hok
              exact idleInv_handleWorkerDone pid (idleInv_of_eq rfl rfl h)
            · cases hok
              exact idleInv_handleWorkerDone pid (idleInv_of_eq rfl rfl h)

/-- Every step — shutdown included — preserves the idle-order invariant. -/
theorem idleInv_step {s s2 : PoolState} {a : Act}
    (hstep : step s a = Except.ok s2) (h : IdleInv s) : IdleInv s2 := by
  cases a with
  | runT t =>
      obtain rfl : runTick s t = s2 := by simpa [step] using hstep
      exact idleInv_runTick t h
  | ready pid =>
      unfold step at hstep
      cases hl : lookupW s.workers pid with
      | none =>
          simp only [hl] at hstep
          cases hstep
          exact h
      | some w =>
          simp only [hl] at hstep
          split at hstep
          · cases hstep
            exact h
          · cases hstep
            exact idleInv_allocate pid (idleInv_of_eq rfl rfl h)
  | taskDone pid =>
      obtain rfl : _handleWorkerDone (clearListener s pid) pid = s2 := by
        simpa [step] using hstep
      exact idleInv_handleWorkerDone pid (idleInv_of_eq rfl rfl h)
  | exitSig pid => exact idleInv_cleanUpChild pid hstep h
  | shutdown =>
      obtain rfl : drain s = s2 := by simpa [step] using hstep
      exact idleInv_of_eq rfl rfl h

/-- Executions preserve the idle-order invariant. -/
theorem idleInv_execSteps {acts : List Act} {s s2 : PoolState}
    (hex : execSteps s acts = Except.ok s2) (h : IdleInv s) : IdleInv s2 := by
  induction acts generalizing s with
  | nil =>
      cases hex
      exact h
  | cons a rest ih =>
      unfold execSteps at hex
      cases hstep : step s a with
      | ok s1 =>
          rw [hstep] at hex
          exact ih hex (idleInv_step hstep h)
      | error e => rw [hstep] at hex; cases hex

/-- In a strictly front-descending list the last element carries the
minimal stamp. -/
theorem getLast_min_of_desc : ∀ (l : List (Nat × Nat)),
    l.Pairwise (fun a b => b.2 < a.2) → ∀ e, l.getLast? = some e →
      ∀ x ∈ l, e.2 ≤ x.2
  | [], _, e, he => by cases he
  | [a], _, e, he => by
      simp only [List.getLast?_singleton, Option.some.injEq] at he
      subst he
      intro x hx
      rcases List.mem_singleton.mp hx with rfl
      exact Nat.le_refl _
  | a :: b :: tl, hp, e, he => by
      rw [List.getLast?_cons_cons] at he
      have h1 := List.pairwise_cons.mp hp
      intro x hx
      rcases List.mem_cons.mp hx with rfl | hx2
      · have hmem : e ∈ b :: tl := by
          rcases List.mem_getLast?_eq_getLast (Option.mem_def.mpr he) with
            ⟨hne, heq⟩
          exact heq ▸ List.getLast_mem hne
        exact Nat.le_of_lt (h1.1 e hmem)
      · exact getLast_min_of_desc (b :: tl) h1.2 e he x hx2

/-- C7: in any reachable pool state with a non-empty idle list, the
deferred dispatch tick of `run` starts the task on `idle.pop()` — the
worker at the back of the idle list — and that worker's idle timestamp is
minimal among all currently idle workers, i.e. it is the worker that has
been idle longest (`_allocate` unshifts newly idle workers at the front,
`run` pops from the back). -/
theorem run_starts_oldest_idle (limit : Nat) (maxT : Int) (acts : List Act)
    (s : PoolState) (t : Nat) (e : Nat × Nat)
    (hex : execTrace limit maxT acts = Except.ok s)
    (hlast : s.idleL.getLast? = some e) :
    (runTick s t).startLog = (e.1, t) :: s.startLog ∧
    (runTick s t).idleL = s.idleL.dropLast ∧
    ∀ x ∈ s.idleL, e.2 ≤ x.2 := by
  have hinv : IdleInv s := idleInv_execSteps hex
    ⟨List.Pairwise.nil, by intro e he; simp [initState] at he⟩
  refine ⟨?_, ?_, getLast_min_of_desc s.idleL hinv.1 e hlast⟩
  · unfold runTick
    simp only [hlast]
    rfl
  · unfold runTick
    simp only [hlast]
    rfl

/-- Trace for the C7 witness: a 2-worker pool runs tasks 5 and 6; worker 0
finishes first and idles, then worker 1 idles. -/
def idleTrace : List Act :=
  [Act.runT 5, Act.runT 6, Act.ready 0, Act.ready 1, Act.taskDone 0,
   Act.taskDone 1]

/-- Pool state reached by `idleTrace`: both workers idle, worker 0 idled at
time 0, worker 1 at time 1. -/
def idleWState : PoolState :=
  { options := ⟨2, -1⟩,
    workers := [(0, ⟨true, 1, false, 0, 1⟩), (1, ⟨true, 1, false, 0, 1⟩)],
    idleL := [(1, 1), (0, 0)],
    tasks := [],
    nextPid := 2, clock := 2,
    events := [Ev.drain, Ev.start 6, Ev.empty, Ev.start 5, Ev.empty],
    listenersActive := true,
    queuedOrder := [5, 6], startedFromQueue := [5, 6],
    startLog := [(1, 6), (0, 5)], killLog := [] }

/-- Concrete instance: after `idleTrace` the idle list is
`[(1, 1), (0, 0)]`; dispatching task 7 starts it on worker 0, idled at
time 0 — the oldest idle worker. -/
theorem run_starts_oldest_idle_witness :
    execTrace 2 (-1) idleTrace = Except.ok idleWState ∧
    (runTick idleWState 7).startLog =
        ((0 : Nat), (7 : Nat)) :: idleWState.startLog ∧
    (runTick idleWState 7).idleL = idleWState.idleL.dropLast ∧
    ∀ x ∈ idleWState.idleL, (0 : Nat) ≤ x.2 :=
  by
  have hex : execTrace 2 (-1) idleTrace = Except.ok idleWState := rfl
  exact ⟨hex,
    run_starts_oldest_idle 2 (-1) idleTrace idleWState 7
      ((0 : Nat), (0 : Nat)) hex rfl⟩

/-! ## C10: the two source versions agree when rotation is disabled

The older pool (`src/lib/pool.js`) has no `maxTasksPerWorker` option and no
`_taskCount_` counter; its `run` and `_allocate` are otherwise the same
code.  `projW`/`projState` forget the counter (and the rotation option). -/

/-- Worker state of the older pool: no `_taskCount_`. -/
structure OldWorker where
  ready : Bool
  killed : Bool
  listenerCount : Nat
  started : Nat
deriving DecidableEq, Repr

/-- Pool state of the older pool; `workersLimit` is its `options.workers`
(the old options have no `maxTasksPerWorker`).  All other fields mirror
`PoolState`. -/
structure OldPoolState where
  workersLimit : Nat
  workers : List (Nat × OldWorker)
  idleL : List (Nat × Nat)
  tasks : List Nat
  nextPid : Nat
  clock : Nat
  events : List Ev
  listenersActive : Bool
  queuedOrder : List Nat
  startedFromQueue : List Nat
  startLog : List (Nat × Nat)
  killLog : List Nat
deriving DecidableEq, Repr

/-- In-place worker update for the older pool. -/
def old_updW (ws : List (Nat × OldWorker)) (pid : Nat)
    (f : OldWorker → OldWorker) : List (Nat × OldWorker) :=
  ws.map (fun e => if e.1 == pid then (e.1, f e.2) else e)

/-- `_spawn()` of the older pool: fork, `_ready_ = false`, register. -/
def old_spawn (s : OldPoolState) : OldPoolState :=
  { s with
    workers := s.workers ++ [(s.nextPid, ⟨false, false, 0, 0⟩)],
    nextPid := s.nextPid + 1 }

/-- `_start(pid, task)` of the older pool (same code as the newer one). -/
def old_start (s : OldPoolState) (pid : Nat) (task : Nat) : OldPoolState :=
  { s with
    workers := old_updW s.workers pid
      (fun w => { w with listenerCount := 1, started := w.started + 1 }),
    events := Ev.start task :: s.events,
    startLog := (pid, task) :: s.startLog }

/-- `_allocate(pid)` of the older pool: no rotation branch and no counter
increment; pop the oldest queued task and start it, or go idle (emitting
`drain` when every tracked worker is idle). -/
def old_allocate (s : OldPoolState) (pid : Nat) : OldPoolState :=
  match s.tasks.getLast? with
  | some t =>
      old_start
        { s with
          events := Ev.empty :: s.events,
          tasks := s.tasks.dropLast,
          startedFromQueue := s.startedFromQueue ++ [t] }
        pid t
  | none =>
      if s.workers.length = ((pid, s.clock) :: s.idleL).length then
        { s with idleL := (pid, s.clock) :: s.idleL, clock := s.clock + 1,
                 events := Ev.drain :: s.events }
      else
        { s with idleL := (pid, s.clock) :: s.idleL, clock := s.clock + 1 }

/-- The deferred `setTimeout` body of the older pool's `run(command)`
(same code as the newer one). -/
def old_runTick (s : OldPoolState) (t : Nat) : OldPoolState :=
  match s.idleL.getLast? with
  | some e => old_start { s with idleL := s.idleL.dropLast } e.1 t
  | none =>
      if s.workers.length < s.workersLimit then
        old_spawn { s with
          tasks := t :: s.tasks,
          queuedOrder := s.queuedOrder ++ [t] }
      else
        { s with
          events := Ev.saturated :: s.events,
          tasks := t :: s.tasks,
          queuedOrder := s.queuedOrder ++ [t] }

/-- Forget the `_taskCount_` counter of a newer-pool worker. -/
def projW (w : Worker) : OldWorker :=
  ⟨w.ready, w.killed, w.listenerCount, w.started⟩

/-- Forget the rotation option and every `_taskCount_` counter. -/
def projState (s : PoolState) : OldPoolState :=
  { workersLimit := s.options.workers,
    workers := s.workers.map (fun e => (e.1, projW e.2)),
    idleL := s.idleL, tasks := s.tasks, nextPid := s.nextPid,
    clock := s.clock, events := s.events,
    listenersActive := s.listenersActive, queuedOrder := s.queuedOrder,
    startedFromQueue := s.startedFromQueue, startLog := s.startLog,
    killLog := s.killLog }

/-- Projection commutes with in-place worker updates whenever the update
functions commute with the per-worker projection. -/
theorem proj_updW (ws : List (Nat × Worker)) (pid : Nat)
    (f : Worker → Worker) (g : OldWorker → OldWorker)
    (hc : ∀ w, projW (f w) = g (projW w)) :
    (updW ws pid f).map (fun e => (e.1, projW e.2)) =
      old_updW (ws.map (fun e => (e.1, projW e.2))) pid g := by
  unfold updW old_updW
  rw [List.map_map, List.map_map]
  apply List.map_congr_left
  intro e _
  by_cases h : e.1 = pid
  · simp [h, hc e.2]
  · simp [h]

/-- Projection commutes with `_start`. -/
theorem proj_start (s : PoolState) (pid task : Nat) :
    projState (_start s pid task) = old_start (projState s) pid task := by
  dsimp only [_start, old_start, projState]
  rw [proj_updW s.workers pid
    (fun w => { w with listenerCount := 1, started := w.started + 1 })
    (fun w => { w with listenerCount := 1, started := w.started + 1 })
    (fun w => rfl)]

/-- Projection commutes with `_spawn`. -/
theorem proj_spawn (s : PoolState) :
    projState (_spawn s) = old_spawn (projState s) := by
  dsimp only [_spawn, old_spawn, projState]
  simp [projW]

/-- Bumping `_taskCount_` is invisible through the projection. -/
theorem proj_updW_taskCount (ws : List (Nat × Worker)) (pid : Nat) :
    (updW ws pid (fun w => { w with taskCount := w.taskCount + 1 })).map
        (fun e => (e.1, projW e.2)) =
      ws.map (fun e => (e.1, projW e.2)) := by
  unfold updW
  rw [List.map_map]
  apply List.map_congr_left
  intro e _
  by_cases h : e.1 = pid
  · simp [h, projW]
  · simp [h]

/-- C10: with the rotation limit disabled (`maxTasksPerWorker ≤ 0`, the
default), the newer pool's `_allocate` and deferred `run` tick agree with
the older pool's (`src/lib/pool.js`) on every state: same worker chosen,
same task started or queued, same events emitted, and equal `workers` (up
to the invisible `_taskCount_` counter), `idle` and `tasks`; the counter
increment is the only extra effect and is erased by `projState`. -/
theorem dispatch_versions_equiv (s : PoolState) (pid t : Nat)
    (h : s.options.maxTasksPerWorker ≤ 0) :
    projState (_allocate s pid) = old_allocate (projState s) pid ∧
    projState (runTick s t) = old_runTick (projState s) t := by
  constructor
  · unfold _allocate old_allocate
    rw [if_neg (fun hc => absurd hc.1 (not_lt.mpr h))]
    cases hg : s.tasks.getLast? with
    | some t0 =>
        have hg2 : (projState s).tasks.getLast? = some t0 := hg
        simp only [hg, hg2]
        rw [proj_start]
        congr 1
        dsimp only [projState]
        rw [proj_updW_taskCount]
    | none =>
        have hg2 : (projState s).tasks.getLast? = none := hg
        simp only [hg, hg2]
        have hlen : (projState s).workers.length = s.workers.length :=
          List.length_map _ _
        by_cases hful : s.workers.length = ((pid, s.clock) :: s.idleL).length
        · rw [if_pos hful, if_pos (show (projState s).workers.length = _ by
            rw [hlen]; exact hful)]
          rfl
        · rw [if_neg hful, if_neg (show ¬(projState s).workers.length = _ by
            rw [hlen]; exact hful)]
          rfl
  · unfold runTick old_runTick
    cases hg : s.idleL.getLast? with
    | some e =>
        have hg2 : (projState s).idleL.getLast? = some e := hg
        simp only [hg, hg2]
        rw [proj_start]
        rfl
    | none =>
        have hg2 : (projState s).idleL.getLast? = none := hg
        simp only [hg, hg2]
        have hlen : (projState s).workers.length = s.workers.length :=
          List.length_map _ _
        by_cases hlt : s.workers.length < s.options.workers
        · rw [if_pos hlt, if_pos (show (projState s).workers.length < _ by
            rw [hlen]; exact hlt)]
          rw [proj_spawn]
          rfl
        · rw [if_neg hlt, if_neg (show ¬(projState s).workers.length < _ by
            rw [hlen]; exact hlt)]
          rfl

/-- State for the C10 witness: a 2-worker pool (rotation disabled) with one
mid-spawn worker and task 3 queued. -/
def equivWState : PoolState :=
  _spawn { (initState 2 (-1)) with tasks := [3], queuedOrder := [3] }

/-- Concrete instance: on `equivWState` the two source versions dispatch
identically through the projection. -/
theorem dispatch_versions_equiv_witness :
    projState (_allocate equivWState 0) =
        old_allocate (projState equivWState) 0 ∧
      projState (runTick equivWState 4) =
        old_runTick (projState equivWState) 4 :=
  dispatch_versions_equiv equivWState 0 4 (by decide)
